import Mathlib

/-!
A shallow embedding of the `argv-flags` parsing engine (`src/index.ts`) and
proofs of the specification claims about it.

Modelling conventions:
* JavaScript strings are Lean `String`s; the inputs exercised are ASCII, so
  UTF-16 length and Unicode case mapping differences do not arise.
* JavaScript numbers are modelled by `JsNum` (`nan`, infinities, or an exact
  rational).  The built-in `Number(string)` conversion is modelled by
  `jsStringToNumber` following the ECMAScript StringNumericLiteral grammar;
  float overflow is approximated by the bound `2 ^ 1024` and
  rounding-to-double is not modelled (no claim depends on it).
* JavaScript objects are association lists in insertion order; JS guarantees
  that an object's keys are distinct, which appears as a `Nodup` hypothesis
  where a proof needs it.
* A thrown `TypeError` is modelled by `Except.error` carrying the message.
-/

set_option maxRecDepth 100000

namespace ArgvFlags

/-- A JavaScript number: NaN, ±Infinity, or a finite value (kept exact as a
rational; IEEE rounding is not modelled). -/
inductive JsNum where
  | nan
  | inf
  | negInf
  | fin (q : ℚ)
deriving DecidableEq, Repr

/-- `Number.isFinite`. -/
def JsNum.isFinite : JsNum → Bool
  | .fin _ => true
  | _ => false

/-- JS whitespace accepted by `Number()` (the common code points). -/
def isJsWhitespace (c : Char) : Bool :=
  c = ' ' || c = '\t' || c = '\n' || c = '\r' || c = '\x0B' || c = '\x0C' ||
    c = '\u00A0' || c = '\uFEFF'

/-- `s.length` of a JS string, via the character list (the inputs exercised
are ASCII, so UTF-16 length agrees). -/
def strLen (s : String) : Nat :=
  s.toList.length

/-- Is the first list a prefix of the second? -/
def isPrefixL : List Char → List Char → Bool
  | [], _ => true
  | _ :: _, [] => false
  | a :: as, b :: bs => a == b && isPrefixL as bs

/-- `s.startsWith(pre)`, via character lists. -/
def startsWithS (s pre : String) : Bool :=
  isPrefixL pre.toList s.toList

/-- `s.toLowerCase()`, via character lists (ASCII case mapping). -/
def toLowerS (s : String) : String :=
  String.mk (s.toList.map Char.toLower)

/-- `s.slice(n)`, via character lists. -/
def dropS (s : String) (n : Nat) : String :=
  String.mk (s.toList.drop n)

/-- Numeric value of a decimal digit sequence. -/
def digitsToNat (cs : List Char) : Nat :=
  cs.foldl (fun acc c => acc * 10 + (c.toNat - 48)) 0

/-- Value of a hex digit, if any. -/
def hexDigitVal (c : Char) : Option Nat :=
  if '0' ≤ c && c ≤ '9' then some (c.toNat - 48)
  else if 'a' ≤ c && c ≤ 'f' then some (c.toNat - 87)
  else if 'A' ≤ c && c ≤ 'F' then some (c.toNat - 55)
  else none

/-- Digits of a non-decimal integer literal in the given radix. -/
def parseRadixDigits (radix : Nat) (cs : List Char) : Option Nat :=
  if cs.isEmpty then none
  else
    cs.foldl
      (fun acc c => do
        let a ← acc
        let d ← hexDigitVal c
        if d < radix then some (a * radix + d) else none)
      (some 0)

/-- `0x` / `0o` / `0b` integer literals (unsigned only, as in ECMAScript). -/
def parseNonDecimal (cs : List Char) : Option ℚ :=
  match cs with
  | '0' :: x :: rest =>
    if x = 'x' ∨ x = 'X' then (parseRadixDigits 16 rest).map (fun n => (n : ℚ))
    else if x = 'o' ∨ x = 'O' then (parseRadixDigits 8 rest).map (fun n => (n : ℚ))
    else if x = 'b' ∨ x = 'B' then (parseRadixDigits 2 rest).map (fun n => (n : ℚ))
    else none
  | _ => none

/-- Exact rational value of `intD.fracD`. -/
def ratOfDigits (intD fracD : List Char) : ℚ :=
  (digitsToNat intD : ℚ) + (digitsToNat fracD : ℚ) / ((10 : ℚ) ^ fracD.length)

/-- Mantissa of a decimal literal: `Digits [. Digits]` or `. Digits`;
returns the value and the unconsumed suffix. -/
def parseDecimalMantissa (cs : List Char) : Option (ℚ × List Char) :=
  let intDigits := cs.takeWhile Char.isDigit
  let rest1 := cs.dropWhile Char.isDigit
  match rest1 with
  | '.' :: rest2 =>
    let fracDigits := rest2.takeWhile Char.isDigit
    let rest3 := rest2.dropWhile Char.isDigit
    if intDigits.isEmpty && fracDigits.isEmpty then none
    else some (ratOfDigits intDigits fracDigits, rest3)
  | _ =>
    if intDigits.isEmpty then none
    else some ((digitsToNat intDigits : ℚ), rest1)

/-- Optional exponent part: `e` or `E`, an optional sign, then digits;
`(0, cs)` when absent. -/
def parseExponent (cs : List Char) : Option (Int × List Char) :=
  match cs with
  | c :: rest =>
    if c = 'e' ∨ c = 'E' then
      let signedTail : Int × List Char :=
        match rest with
        | '+' :: r => (1, r)
        | '-' :: r => (-1, r)
        | r => (1, r)
      let digs := signedTail.2.takeWhile Char.isDigit
      let rest3 := signedTail.2.dropWhile Char.isDigit
      if digs.isEmpty then none
      else some (signedTail.1 * (digitsToNat digs : Int), rest3)
    else some (0, cs)
  | [] => some (0, [])

/-- Scale a mantissa by a power of ten. -/
def applyExp (m : ℚ) (e : Int) : ℚ :=
  if e ≥ 0 then m * (10 : ℚ) ^ e.toNat else m / (10 : ℚ) ^ (-e).toNat

/-- Unsigned decimal literal with optional exponent; the whole input must be
consumed. -/
def parseUnsignedDecimal (cs : List Char) : Option ℚ := do
  let m ← parseDecimalMantissa cs
  let e ← parseExponent m.2
  if e.2.isEmpty then some (applyExp m.1 e.1) else none

/-- The double-precision overflow bound `2 ^ 1024` (approximate; see module
comment), built with `mkRat` over a `Nat` power so that it evaluates
shallowly. -/
def FLOAT_OVERFLOW : ℚ := mkRat ((2 ^ 1024 : Nat) : Int) 1

/-- Map an exact rational onto a JS number, sending overflowing magnitudes to
the infinities as `Number()` does. -/
def applyOverflow (q : ℚ) : JsNum :=
  if FLOAT_OVERFLOW ≤ q then .inf
  else if q ≤ -FLOAT_OVERFLOW then .negInf
  else .fin q

/-- Shared tail of `jsStringToNumber`: `Infinity`, non-decimal (when no sign
was written), or a decimal literal; otherwise NaN. -/
def jsUnsignedPart (neg : Bool) (allowRadix : Bool) (body : List Char) : JsNum :=
  if body = "Infinity".toList then (if neg then .negInf else .inf)
  else
    let fromRadix := if allowRadix then parseNonDecimal body else none
    match fromRadix with
    | some q => applyOverflow (if neg then -q else q)
    | none =>
      match parseUnsignedDecimal body with
      | some q => applyOverflow (if neg then -q else q)
      | none => .nan

/-- Model of the JS `Number(string)` conversion (ECMAScript
StringNumericLiteral): trim whitespace, empty means `0`, optional sign
followed by `Infinity` or a decimal literal, or an unsigned `0x`/`0o`/`0b`
literal; anything else is NaN. -/
def jsStringToNumber (s : String) : JsNum :=
  let cs := ((s.toList.dropWhile isJsWhitespace).reverse.dropWhile isJsWhitespace).reverse
  match cs with
  | [] => .fin 0
  | '+' :: body => jsUnsignedPart false false body
  | '-' :: body => jsUnsignedPart true false body
  | body => jsUnsignedPart false true body

/-- A JavaScript value, as far as the schema validator inspects one.  An
`obj` is an association list in insertion order (JS object keys are unique). -/
inductive JVal where
  | undef
  | null
  | bool (b : Bool)
  | num (n : JsNum)
  | str (s : String)
  | arr (elems : List JVal)
  | obj (fields : List (String × JVal))

/-- Reading a property of a JS object: absent properties are `undefined`. -/
def getField (fields : List (String × JVal)) (k : String) : JVal :=
  match fields with
  | [] => .undef
  | (k', v) :: rest => if k' = k then v else getField rest k

/-- `FlagType` from the source: the four recognized entry types. -/
inductive FlagType where
  | string
  | boolean
  | number
  | array
deriving DecidableEq, Repr

/-- A typed flag value (`FlagValue<T>` in the source, with the variants
collapsed into one sum). -/
inductive FlagValue where
  | vStr (s : String)
  | vBool (b : Bool)
  | vNum (n : JsNum)
  | vArr (elems : List String)
deriving DecidableEq, Repr

/-- `IssueSeverity`. -/
inductive IssueSeverity where
  | error
  | warning
deriving DecidableEq, Repr

/-- `IssueCode`: the six parse-issue codes. -/
inductive IssueCode where
  | UNKNOWN_FLAG
  | MISSING_VALUE
  | INVALID_VALUE
  | REQUIRED
  | DUPLICATE
  | EMPTY_VALUE
deriving DecidableEq, Repr

/-- `ParseIssue` (optional fields as `Option`s, absent = `none`). -/
structure ParseIssue where
  code : IssueCode
  severity : IssueSeverity
  message : String
  flag : Option String := none
  key : Option String := none
  value : Option String := none
  index : Option Nat := none
deriving DecidableEq, Repr

/-- `NormalizedSpec` as produced by `validateSchema`: the spread-based
construction keeps `required` / `allowEmpty` only when the raw field was
literally `true`, and `allowNo` is `false` only when the raw field was
literally `false`; reading those optional JS properties back is equivalent to
reading these booleans. -/
structure NormalizedSpec where
  type : FlagType
  flags : List String
  required : Bool
  allowEmpty : Bool
  allowNo : Bool
  dflt : Option FlagValue
  longFlag : Option String
deriving DecidableEq, Repr

/-- `ParseOptions`.  `argv` is the explicit token list (the ambient
`process.argv` fallback used when the caller omits it is outside the model);
`allowUnknown` and `stopAtDoubleDash` keep their raw optional form since the
source compares them with `=== true` / `!== false`. -/
structure ParseOptions where
  argv : List String := []
  allowUnknown : Option Bool := none
  stopAtDoubleDash : Option Bool := none

/-- `ParseResult` (maps keyed by schema key become association lists in
declaration order; `values` entries are `none` when the JS value would be
`undefined`). -/
structure ParseResult where
  values : List (String × Option FlagValue)
  present : List (String × Bool)
  rest : List String
  unknown : List String
  issues : List ParseIssue
  ok : Bool
deriving DecidableEq, Repr

/-- Association-list lookup (JS property read / `Map.get`). -/
def lookupA {α : Type} (l : List (String × α)) (k : String) : Option α :=
  match l with
  | [] => none
  | (k', v) :: rest => if k' = k then some v else lookupA rest k

/-- Association-list update (JS property write): overwrites an existing key in
place, appends a fresh one. -/
def setA {α : Type} (l : List (String × α)) (k : String) (v : α) : List (String × α) :=
  match l with
  | [] => [(k, v)]
  | (k', v') :: rest => if k' = k then (k, v) :: rest else (k', v') :: setA rest k v

/-- `isFlagToken`: starts with `-` and has length > 1. -/
def isFlagToken (value : String) : Bool :=
  startsWithS value "-" && strLen value > 1

/-- `normalizeBoolean`: case-insensitive boolean words. -/
def normalizeBoolean (value : String) : Option Bool :=
  let normalized := toLowerS value
  if normalized == "true" || normalized == "1" || normalized == "yes" ||
      normalized == "y" || normalized == "on" then some true
  else if normalized == "false" || normalized == "0" || normalized == "no" ||
      normalized == "n" || normalized == "off" then some false
  else none

/-- `isNumericValue`: non-empty and `Number(value)` is finite. -/
def isNumericValue (value : String) : Bool :=
  strLen value ≠ 0 && (jsStringToNumber value).isFinite

/-- `cloneDefault`: the source slices array defaults to copy them; under
value semantics the copy is the identity. -/
def cloneDefault (value : Option FlagValue) (_type : FlagType) : Option FlagValue :=
  value

/-- `splitInlineValue`: split at the first `=` when its index is positive. -/
def splitInlineValue (token : String) : String × Option String :=
  match token.toList.findIdx? (fun c => c = '=') with
  | none => (token, none)
  | some 0 => (token, none)
  | some i =>
    (String.mk (token.toList.take i), some (String.mk (token.toList.drop (i + 1))))

/-- `isStringArray`. -/
def isStringArray (elems : List JVal) : Bool :=
  elems.all fun e => match e with | .str _ => true | _ => false

/-- Project a string JS array onto its strings (defined on `isStringArray`
inputs). -/
def stringsOf (elems : List JVal) : List String :=
  elems.filterMap fun e => match e with | .str s => some s | _ => none

/-- `normalizeDefaultValue`: type-check a declared `default`. -/
def normalizeDefaultValue (key : String) (value : JVal) (type : FlagType) :
    Except String (Option FlagValue) :=
  match value with
  | .undef => .ok none
  | _ =>
    match type with
    | .string =>
      match value with
      | .str s => .ok (some (.vStr s))
      | _ => .error s!"Schema entry \"{key}\" default must be a string."
    | .boolean =>
      match value with
      | .bool b => .ok (some (.vBool b))
      | _ => .error s!"Schema entry \"{key}\" default must be a boolean."
    | .number =>
      match value with
      | .num (.fin q) => .ok (some (.vNum (.fin q)))
      | _ => .error s!"Schema entry \"{key}\" default must be a finite number."
    | .array =>
      match value with
      | .arr elems =>
        if isStringArray elems then .ok (some (.vArr (stringsOf elems)))
        else .error s!"Schema entry \"{key}\" default must be a string array."
      | _ => .error s!"Schema entry \"{key}\" default must be a string array."

/-- The inner flag loop of `validateSchema`: check each declared flag token
and record it in `flagToKey`, rejecting duplicates. -/
def validateFlags (key : String) (flagsInput : List JVal)
    (flagToKey : List (String × String)) :
    Except String (List String × List (String × String)) :=
  match flagsInput with
  | [] => .ok ([], flagToKey)
  | f :: rest =>
    match f with
    | .str flag =>
      if strLen flag < 2 || !startsWithS flag "-" then
        .error s!"Schema entry \"{key}\" has invalid flag \"{flag}\"."
      else
        match lookupA flagToKey flag with
        | some existing =>
          .error s!"Flag \"{flag}\" is already assigned to \"{existing}\"."
        | none => do
          let tail ← validateFlags key rest (flagToKey ++ [(flag, key)])
          .ok (flag :: tail.1, tail.2)
    | _ => .error s!"Schema entry \"{key}\" has invalid flag."

/-- The per-entry body of `validateSchema`'s key loop. -/
def validateEntry (key : String) (rawSpec : JVal)
    (flagToKey : List (String × String)) :
    Except String (List (String × String) × NormalizedSpec) := do
  let fields ←
    match rawSpec with
    | .obj fields => Except.ok fields
    | _ => Except.error s!"Schema entry for \"{key}\" must be an object."
  let type ←
    match getField fields "type" with
    | .str "string" => Except.ok FlagType.string
    | .str "boolean" => Except.ok FlagType.boolean
    | .str "number" => Except.ok FlagType.number
    | .str "array" => Except.ok FlagType.array
    | _ => Except.error s!"Schema entry \"{key}\" has invalid type."
  let flagsInput ←
    match getField fields "flags" with
    | .arr elems =>
      if elems.isEmpty then
        Except.error s!"Schema entry \"{key}\" must define at least one flag."
      else Except.ok elems
    | _ => Except.error s!"Schema entry \"{key}\" must define at least one flag."
  let flagsOut ← validateFlags key flagsInput flagToKey
  let defaultValue ← normalizeDefaultValue key (getField fields "default") type
  let required := match getField fields "required" with | .bool true => true | _ => false
  let allowEmpty := match getField fields "allowEmpty" with | .bool true => true | _ => false
  let allowNo := match getField fields "allowNo" with | .bool false => false | _ => true
  let longFlag := flagsOut.1.find? fun flag => startsWithS flag "--"
  .ok (flagsOut.2,
    { type, flags := flagsOut.1, required, allowEmpty, allowNo,
      dflt := defaultValue, longFlag })

/-- The key loop of `validateSchema`, threading `flagToKey` and accumulating
normalized specs in declaration order. -/
def validateEntries (entries : List (String × JVal))
    (flagToKey : List (String × String))
    (normalized : List (String × NormalizedSpec)) :
    Except String (List (String × String) × List (String × NormalizedSpec)) :=
  match entries with
  | [] => .ok (flagToKey, normalized)
  | (key, rawSpec) :: rest => do
    let out ← validateEntry key rawSpec flagToKey
    validateEntries rest out.1 (normalized ++ [(key, out.2)])

/-- `validateSchema`: reject non-object schemas, then walk the entries. -/
def validateSchema (schema : JVal) :
    Except String (List (String × String) × List (String × NormalizedSpec)) :=
  match schema with
  | .obj entries => validateEntries entries [] []
  | _ => .error "Schema must be an object."

/-- Mutable scan state of the dispatch loop (`values`, `present`, `rest`,
`unknown`, `issues`). -/
structure ScanState where
  values : List (String × Option FlagValue)
  present : List (String × Bool)
  rest : List String
  unknown : List String
  issues : List ParseIssue
deriving DecidableEq, Repr

/-- Per-call context: lookup tables and the two parse options. -/
structure ScanCtx where
  ftk : List (String × String)
  nm : List (String × NormalizedSpec)
  allowUnknown : Bool
  stopDD : Bool

/-- Outcome of one value coercion: the value to assign (if any), the issue to
push (if any), and how many extra tokens were consumed. -/
structure CoerceOut where
  value : Option FlagValue
  issue : Option ParseIssue
  skip : Nat
deriving Repr

/-- `MISSING_VALUE` issue. -/
def missingIssue (flag key : String) (index : Nat) : ParseIssue :=
  { code := .MISSING_VALUE, severity := .error,
    message := s!"Missing value for {flag}.",
    flag := some flag, key := some key, index := some index }

/-- The `boolean` case of the dispatch switch: use the inline value if there
is one; otherwise consume the next token only when it parses as a boolean
word; otherwise bare presence means `true`.  An explicit value that fails to
parse yields `INVALID_VALUE` and no assignment. -/
def coerceBoolean (flag key : String) (i : Nat) (inline : Option String)
    (next : Option String) : CoerceOut :=
  match inline with
  | some raw =>
    match normalizeBoolean raw with
    | none =>
      { value := none,
        issue := some
          { code := .INVALID_VALUE, severity := .error,
            message := s!"Invalid boolean value for {flag}: {raw}.",
            flag := some flag, key := some key, value := some raw,
            index := some i },
        skip := 0 }
    | some b => { value := some (.vBool b), issue := none, skip := 0 }
  | none =>
    match next with
    | some t =>
      match normalizeBoolean t with
      | some b => { value := some (.vBool b), issue := none, skip := 1 }
      | none => { value := some (.vBool true), issue := none, skip := 0 }
    | none => { value := some (.vBool true), issue := none, skip := 0 }

/-- Shared tail of the `string` case: empty-value check, then assignment.
`index` is the (possibly advanced) cursor the source would report. -/
def finishString (flag key : String) (index : Nat) (allowEmpty : Bool)
    (raw : String) (skip : Nat) : CoerceOut :=
  if strLen raw = 0 && !allowEmpty then
    { value := none,
      issue := some
        { code := .EMPTY_VALUE, severity := .error,
          message := s!"Empty value not allowed for {flag}.",
          flag := some flag, key := some key, index := some index },
      skip }
  else { value := some (.vStr raw), issue := none, skip }

/-- The `string` case: inline value, else the next token provided it exists
and is not flag-shaped. -/
def coerceString (flag key : String) (i : Nat) (allowEmpty : Bool)
    (inline : Option String) (next : Option String) : CoerceOut :=
  match inline with
  | some raw => finishString flag key i allowEmpty raw 0
  | none =>
    match next with
    | none => { value := none, issue := some (missingIssue flag key i), skip := 0 }
    | some nextValue =>
      if isFlagToken nextValue then
        { value := none, issue := some (missingIssue flag key i), skip := 0 }
      else finishString flag key (i + 1) allowEmpty nextValue 1

/-- Shared tail of the `number` case: numeric check, then assignment of
`Number(raw)`. -/
def finishNumber (flag key : String) (index : Nat) (raw : String) (skip : Nat) :
    CoerceOut :=
  if !isNumericValue raw then
    { value := none,
      issue := some
        { code := .INVALID_VALUE, severity := .error,
          message := s!"Invalid number value for {flag}: {raw}.",
          flag := some flag, key := some key, value := some raw,
          index := some index },
      skip }
  else { value := some (.vNum (jsStringToNumber raw)), issue := none, skip }

/-- The `number` case: like `string`, but the flag-shape guard on the next
token is bypassed when that token is itself a well-formed finite number. -/
def coerceNumber (flag key : String) (i : Nat) (inline : Option String)
    (next : Option String) : CoerceOut :=
  match inline with
  | some raw => finishNumber flag key i raw 0
  | none =>
    match next with
    | none => { value := none, issue := some (missingIssue flag key i), skip := 0 }
    | some nextValue =>
      if !isNumericValue nextValue && isFlagToken nextValue then
        { value := none, issue := some (missingIssue flag key i), skip := 0 }
      else finishNumber flag key (i + 1) nextValue 1

/-- Tokens the array case's cursor loop consumes from the upcoming tokens:
everything up to a flag-shaped token or (when enabled) `--`. -/
def arrayConsumed (stopDD : Bool) (tail : List String) : List String :=
  tail.takeWhile fun t => !(stopDD && t == "--") && !isFlagToken t

/-- The array case's first collected element: a non-empty inline value. -/
def inlineCollected (inline : Option String) : List String :=
  match inline with
  | some v => if strLen v > 0 then [v] else []
  | none => []

/-- The `array` case: a non-empty inline value is the first collected
element, then upcoming tokens are consumed; collected elements are appended
to the existing accumulated value (`existing`). -/
def coerceArray (flag key : String) (i : Nat) (allowEmpty stopDD : Bool)
    (inline : Option String) (tail : List String) (existing : List String) :
    CoerceOut :=
  let inlinePart := inlineCollected inline
  let consumed := arrayConsumed stopDD tail
  let collected := inlinePart ++ consumed
  if collected.isEmpty && !allowEmpty then
    { value := none,
      issue := some (missingIssue flag key (i + consumed.length)),
      skip := consumed.length }
  else
    { value := some (.vArr (existing ++ collected)), issue := none,
      skip := consumed.length }

/-- The accumulated value the array case appends to
(`Array.isArray(values[key]) ? values[key] : []`). -/
def existingArray (v : Option (Option FlagValue)) : List String :=
  match v with
  | some (some (.vArr xs)) => xs
  | _ => []

/-- `DUPLICATE` warning. -/
def duplicateIssue (flag key : String) (index : Nat) : ParseIssue :=
  { code := .DUPLICATE, severity := .warning,
    message := s!"Duplicate flag {flag}.",
    flag := some flag, key := some key, index := some index }

/-- `UNKNOWN_FLAG` error. -/
def unknownIssue (flag : String) (index : Nat) : ParseIssue :=
  { code := .UNKNOWN_FLAG, severity := .error,
    message := s!"Unknown flag {flag}.",
    flag := some flag, index := some index }

/-- Does the `--no-<name>` negation path apply?  If so, return the base flag
and its key. -/
def negationTarget (ctx : ScanCtx) (flag : String) : Option (String × String) :=
  if startsWithS flag "--no-" && (lookupA ctx.ftk flag).isNone then
    let base := "--" ++ dropS flag 5
    match lookupA ctx.ftk base with
    | some baseKey =>
      match lookupA ctx.nm baseKey with
      | some baseSpec =>
        if baseSpec.type = .boolean && baseSpec.allowNo then some (base, baseKey)
        else none
      | none => none
    | none => none
  else none

/-- One iteration of the dispatch loop at index `i`: `tok` is `argv[i]` and
`tail` is `argv.slice(i + 1)`.  Returns the new state and `some skip` to
continue at index `i + 1 + skip`, or `none` to stop scanning (`--`). -/
def stepAt (ctx : ScanCtx) (i : Nat) (tok : String) (tail : List String)
    (st : ScanState) : ScanState × Option Nat :=
  if ctx.stopDD && tok == "--" then
    ({ st with rest := st.rest ++ tail }, none)
  else if !isFlagToken tok then
    ({ st with rest := st.rest ++ [tok] }, some 0)
  else
    let split := splitInlineValue tok
    let flag := split.1
    let inline := split.2
    match negationTarget ctx flag with
    | some target =>
      let base := target.1
      let baseKey := target.2
      let dup : List ParseIssue :=
        if lookupA st.present baseKey = some true then
          [duplicateIssue base baseKey i]
        else []
      ({ st with
          issues := st.issues ++ dup,
          present := setA st.present baseKey true,
          values := setA st.values baseKey (some (.vBool false)) },
        some 0)
    | none =>
      match lookupA ctx.ftk flag with
      | none =>
        if !ctx.allowUnknown then
          ({ st with issues := st.issues ++ [unknownIssue flag i] }, some 0)
        else
          ({ st with unknown := st.unknown ++ [tok] }, some 0)
      | some key =>
        match lookupA ctx.nm key with
        | none => (st, some 0)
        | some spec =>
          let wasPresent := lookupA st.present key = some true
          let dup : List ParseIssue :=
            if wasPresent ∧ spec.type ≠ .array then [duplicateIssue flag key i]
            else []
          let stP := { st with present := setA st.present key true }
          let out :=
            match spec.type with
            | .boolean => coerceBoolean flag key i inline tail.head?
            | .string => coerceString flag key i spec.allowEmpty inline tail.head?
            | .number => coerceNumber flag key i inline tail.head?
            | .array =>
              coerceArray flag key i spec.allowEmpty ctx.stopDD inline tail
                (existingArray (lookupA stP.values key))
          let newValues :=
            match out.value with
            | some v => setA stP.values key (some v)
            | none => stP.values
          let newIssues :=
            match out.issue with
            | some is => dup ++ [is]
            | none => dup
          ({ stP with values := newValues, issues := st.issues ++ newIssues },
            some out.skip)

/-- Fuel-indexed form of the dispatch loop (structural recursion on the
fuel, which lets concrete runs evaluate).  Each iteration consumes at least
one token, so fuel equal to the remaining token count never runs out; the
fuel-exhausted branch is unreachable from `scanLoop`. -/
def scanLoopF (ctx : ScanCtx) : Nat → Nat → List String → ScanState → ScanState
  | _, _, [], st => st
  | 0, _, _ :: _, st => st
  | fuel + 1, i, tok :: tail, st =>
    match stepAt ctx i tok tail st with
    | (st', none) => st'
    | (st', some skip) => scanLoopF ctx fuel (i + 1 + skip) (tail.drop skip) st'

/-- The dispatch loop: walk the remaining tokens left to right; each step
consumes the current token plus `skip` lookahead tokens. -/
def scanLoop (ctx : ScanCtx) (i : Nat) (rem : List String) (st : ScanState) :
    ScanState :=
  scanLoopF ctx rem.length i rem st

/-- `REQUIRED` issue for a key, naming its first declared flag. -/
def requiredIssue (key : String) (spec : NormalizedSpec) : ParseIssue :=
  let primaryFlag := spec.flags.head?
  let shown := primaryFlag.getD ""
  { code := .REQUIRED, severity := .error,
    message := s!"Missing required flag {shown}.",
    flag := primaryFlag, key := some key }

/-- The required-field pass: one `REQUIRED` error per declaration-ordered key
with `required = true` that is not present. -/
def requiredIssues (nm : List (String × NormalizedSpec))
    (present : List (String × Bool)) : List ParseIssue :=
  nm.filterMap fun kp =>
    if kp.2.required ∧ lookupA present kp.1 ≠ some true then
      some (requiredIssue kp.1 kp.2)
    else none

/-- Initial scan state: every key not present, every value its (cloned)
declared default. -/
def initState (nm : List (String × NormalizedSpec)) : ScanState :=
  { values := nm.map fun kp => (kp.1, cloneDefault kp.2.dflt kp.2.type),
    present := nm.map fun kp => (kp.1, false),
    rest := [], unknown := [], issues := [] }

/-- Assemble the final `ParseResult`; `ok` is true exactly when no issue has
severity `error`. -/
def assembleResult (st : ScanState) (issues : List ParseIssue) : ParseResult :=
  { values := st.values, present := st.present, rest := st.rest,
    unknown := st.unknown, issues,
    ok := issues.all fun issue => decide (issue.severity ≠ .error) }

/-- `parseArgs`: validate the schema (throwing = `Except.error`), scan the
tokens, run the required-field pass, and assemble the result. -/
def parseArgs (schema : JVal) (options : ParseOptions) : Except String ParseResult :=
  match validateSchema schema with
  | .error e => .error e
  | .ok tables =>
    let ctx : ScanCtx :=
      { ftk := tables.1, nm := tables.2,
        allowUnknown := options.allowUnknown == some true,
        stopDD := options.stopAtDoubleDash != some false }
    let stF := scanLoop ctx 0 options.argv (initState tables.2)
    let allIssues := stF.issues ++ requiredIssues tables.2 stF.present
    .ok (assembleResult stF allIssues)

/-- Example normalized spec for a boolean key `flag` with default `false`. -/
def exBoolSpec : NormalizedSpec :=
  { type := .boolean, flags := ["--flag"], required := false,
    allowEmpty := false, allowNo := true, dflt := some (.vBool false),
    longFlag := some "--flag" }

/-- Example scan context for `exBoolSpec`. -/
def exBoolCtx : ScanCtx :=
  { ftk := [("--flag", "flag")], nm := [("flag", exBoolSpec)],
    allowUnknown := false, stopDD := true }

/-- Initial scan state for `exBoolCtx`. -/
def exBoolSt : ScanState :=
  initState exBoolCtx.nm

/-- Example normalized spec for a number key `n`. -/
def exNumSpec : NormalizedSpec :=
  { type := .number, flags := ["--n"], required := false,
    allowEmpty := false, allowNo := true, dflt := none, longFlag := some "--n" }

/-- Example scan context for `exNumSpec`. -/
def exNumCtx : ScanCtx :=
  { ftk := [("--n", "n")], nm := [("n", exNumSpec)],
    allowUnknown := false, stopDD := true }

/-- Initial scan state for `exNumCtx`. -/
def exNumSt : ScanState :=
  initState exNumCtx.nm

/-- Example normalized spec for an array key `items` with default `['seed']`. -/
def exArrSpec : NormalizedSpec :=
  { type := .array, flags := ["--items"], required := false,
    allowEmpty := false, allowNo := true, dflt := some (.vArr ["seed"]),
    longFlag := some "--items" }

/-- Example scan context for `exArrSpec`. -/
def exArrCtx : ScanCtx :=
  { ftk := [("--items", "items")], nm := [("items", exArrSpec)],
    allowUnknown := false, stopDD := true }

/-- Initial scan state for `exArrCtx`. -/
def exArrSt : ScanState :=
  initState exArrCtx.nm

/-- Example normalized spec for a required string key `name`. -/
def exStrReqSpec : NormalizedSpec :=
  { type := .string, flags := ["--name"], required := true,
    allowEmpty := false, allowNo := true, dflt := none,
    longFlag := some "--name" }

/-- Example scan context for `exStrReqSpec`. -/
def exStrCtx : ScanCtx :=
  { ftk := [("--name", "name")], nm := [("name", exStrReqSpec)],
    allowUnknown := false, stopDD := true }

/-- Initial scan state for `exStrCtx`. -/
def exStrSt : ScanState :=
  initState exStrCtx.nm

/-- Example schema: a required string key `name` that also declares a
default. -/
def exSchemaNameReqDef : JVal :=
  .obj [("name", .obj [("type", .str "string"), ("flags", .arr [.str "--name"]),
    ("required", .bool true), ("default", .str "d")])]

/-- The normalized spec `validateSchema` produces for
`exSchemaNameReqDef`. -/
def exNameReqDefSpec : NormalizedSpec :=
  { type := .string, flags := ["--name"], required := true,
    allowEmpty := false, allowNo := true, dflt := some (.vStr "d"),
    longFlag := some "--name" }

/-- The result `parseArgs` produces for `exSchemaNameReqDef` on empty
argv: the default value is filled in, but the `REQUIRED` error is still
emitted. -/
def exNameReqDefResult : ParseResult :=
  { values := [("name", some (.vStr "d"))], present := [("name", false)],
    rest := [], unknown := [],
    issues := [requiredIssue "name" exNameReqDefSpec], ok := false }

/-- Is an `Except` a success? -/
def isOkE {ε α : Type} : Except ε α → Bool
  | .ok _ => true
  | .error _ => false

/-- Does a parse issue carry code `REQUIRED` for the given key? -/
def isRequiredFor (k : String) (issue : ParseIssue) : Bool :=
  issue.code == .REQUIRED && issue.key == some k

/-- Parse options with an explicit argv and both other options omitted. -/
def exOpts (argv : List String) : ParseOptions :=
  { argv := argv }

/-- Example schema: `{ name: { type: 'string', flags: ['--name'], required: true } }`. -/
def exSchemaNameReq : JVal :=
  .obj [("name", .obj [("type", .str "string"), ("flags", .arr [.str "--name"]),
    ("required", .bool true)])]

/-- Example schema: `{ n: { type: 'number', flags: ['--n'] } }`. -/
def exSchemaN : JVal :=
  .obj [("n", .obj [("type", .str "number"), ("flags", .arr [.str "--n"])])]

/-- Example schema: `{ items: { type: 'array', flags: ['--items'] } }`. -/
def exSchemaItems : JVal :=
  .obj [("items", .obj [("type", .str "array"), ("flags", .arr [.str "--items"])])]

/-- Example schema: `{ items: { type: 'array', flags: ['--items'], default: ['seed'] } }`. -/
def exSchemaItemsSeed : JVal :=
  .obj [("items", .obj [("type", .str "array"), ("flags", .arr [.str "--items"]),
    ("default", .arr [.str "seed"])])]

/-- Example schema: `{ flag: { type: 'boolean', flags: ['--flag'] } }`. -/
def exSchemaFlagBool : JVal :=
  .obj [("flag", .obj [("type", .str "boolean"), ("flags", .arr [.str "--flag"])])]

/-- Example schema: `{ flag: { type: 'boolean', flags: ['--flag'], default: false } }`. -/
def exSchemaFlagBoolDef : JVal :=
  .obj [("flag", .obj [("type", .str "boolean"), ("flags", .arr [.str "--flag"]),
    ("default", .bool false)])]

/-- Failing input for C2: `allowNo` set on a string-typed entry (the repo's
own test expects `parseArgs` to throw on it). -/
def exSchemaAllowNoOnString : JVal :=
  .obj [("flag", .obj [("type", .str "string"), ("flags", .arr [.str "--flag"]),
    ("allowNo", .bool true)])]

/-- Failing input for C2: `allowEmpty` set on a boolean-typed entry. -/
def exSchemaAllowEmptyOnBoolean : JVal :=
  .obj [("flag", .obj [("type", .str "boolean"), ("flags", .arr [.str "--flag"]),
    ("allowEmpty", .bool false)])]

/-- Failing input for C2: `required` given the non-boolean value `'yes'`. -/
def exSchemaRequiredNonBool : JVal :=
  .obj [("flag", .obj [("type", .str "string"), ("flags", .arr [.str "--flag"]),
    ("required", .str "yes")])]

/-! ## Helper lemmas -/

theorem lookupA_setA_self {α : Type} (l : List (String × α)) (k : String) (v : α) :
    lookupA (setA l k v) k = some v := by
  induction l with
  | nil => simp [setA, lookupA]
  | cons hd tl ih =>
    obtain ⟨k', v'⟩ := hd
    by_cases h : k' = k
    · simp [setA, lookupA, h]
    · simp [setA, lookupA, h, ih]

theorem lookupA_setA_ne {α : Type} (l : List (String × α)) (k k' : String) (v : α)
    (h : k' ≠ k) : lookupA (setA l k v) k' = lookupA l k' := by
  have hne : ¬ (k = k') := fun hh => h hh.symm
  induction l with
  | nil => simp [setA, lookupA, hne]
  | cons hd tl ih =>
    obtain ⟨k₀, v₀⟩ := hd
    by_cases h₀ : k₀ = k
    · subst h₀
      simp [setA, lookupA, hne]
    · simp only [setA, lookupA, h₀, if_false]
      by_cases h₁ : k₀ = k'
      · simp [h₁, lookupA]
      · simp [h₁, lookupA, ih]

theorem lookupA_setA_true_mono (p : List (String × Bool)) (k k' : String)
    (h : lookupA p k = some true) :
    lookupA (setA p k' true) k = some true := by
  by_cases hk : k = k'
  · subst hk; exact lookupA_setA_self p k true
  · rw [lookupA_setA_ne p k' k true hk]; exact h

theorem negationTarget_of_known (ctx : ScanCtx) (flag k : String)
    (h : lookupA ctx.ftk flag = some k) : negationTarget ctx flag = none := by
  unfold negationTarget
  simp [h]

theorem coerceBoolean_issue_code (f k : String) (i : Nat) (inl nx : Option String)
    (is : ParseIssue) (h : (coerceBoolean f k i inl nx).issue = some is) :
    is.code = .INVALID_VALUE := by
  unfold coerceBoolean at h
  rcases inl with _ | raw <;> rcases nx with _ | t <;> dsimp only at h <;>
    repeat' split at h
  all_goals first
    | (injection h with h; subst h; simp)
    | injection h

theorem coerceString_issue_code (f k : String) (i : Nat) (ae : Bool)
    (inl nx : Option String) (is : ParseIssue)
    (h : (coerceString f k i ae inl nx).issue = some is) :
    is.code = .MISSING_VALUE ∨ is.code = .EMPTY_VALUE := by
  unfold coerceString finishString missingIssue at h
  rcases inl with _ | raw <;> rcases nx with _ | t <;> dsimp only at h <;>
    repeat' split at h
  all_goals first
    | (injection h with h; subst h; simp)
    | injection h

theorem coerceNumber_issue_code (f k : String) (i : Nat)
    (inl nx : Option String) (is : ParseIssue)
    (h : (coerceNumber f k i inl nx).issue = some is) :
    is.code = .MISSING_VALUE ∨ is.code = .INVALID_VALUE := by
  unfold coerceNumber finishNumber missingIssue at h
  rcases inl with _ | raw <;> rcases nx with _ | t <;> dsimp only at h <;>
    repeat' split at h
  all_goals first
    | (injection h with h; subst h; simp)
    | injection h

theorem coerceArray_issue_code (f k : String) (i : Nat) (ae sd : Bool)
    (inl : Option String) (tail ex : List String) (is : ParseIssue)
    (h : (coerceArray f k i ae sd inl tail ex).issue = some is) :
    is.code = .MISSING_VALUE := by
  unfold coerceArray missingIssue at h
  dsimp only at h
  repeat' split at h
  all_goals first
    | (injection h with h; subst h; simp)
    | injection h

theorem stepAt_spec (ctx : ScanCtx) (i : Nat) (tok : String) (tail : List String)
    (st st' : ScanState) (cont : Option Nat)
    (h : stepAt ctx i tok tail st = (st', cont)) :
    (∃ new, st'.issues = st.issues ++ new ∧ ∀ is ∈ new, is.code ≠ .REQUIRED) ∧
    (∀ k, lookupA st.present k = some true → lookupA st'.present k = some true) := by
  unfold stepAt at h
  dsimp only at h
  split at h
  · -- double dash: rest extended, issues and present unchanged
    injection h with h1 h2
    subst h1
    exact ⟨⟨[], by simp, by simp⟩, fun k hk => hk⟩
  split at h
  · -- non-flag token: rest extended
    injection h with h1 h2
    subst h1
    exact ⟨⟨[], by simp, by simp⟩, fun k hk => hk⟩
  split at h
  · -- negation path
    injection h with h1 h2
    subst h1
    constructor
    · refine ⟨_, rfl, ?_⟩
      intro is his
      split at his
      · simp only [List.mem_singleton] at his
        subst his
        simp [duplicateIssue]
      · simp at his
    · intro k hk
      exact lookupA_setA_true_mono _ _ _ hk
  split at h
  · -- unresolved flag
    split at h
    · injection h with h1 h2
      subst h1
      refine ⟨⟨[unknownIssue _ i], rfl, ?_⟩, fun k hk => hk⟩
      intro is his
      simp only [List.mem_singleton] at his
      subst his
      simp [unknownIssue]
    · injection h with h1 h2
      subst h1
      exact ⟨⟨[], by simp, by simp⟩, fun k hk => hk⟩
  · -- resolved flag
    split at h
    · -- defensive: key missing from normalized map
      injection h with h1 h2
      subst h1
      exact ⟨⟨[], by simp, by simp⟩, fun k hk => hk⟩
    · -- dispatch to a coercer
      injection h with h1 h2
      subst h1
      rename String => key
      rename NormalizedSpec => spec
      constructor
      · refine ⟨_, rfl, ?_⟩
        intro is his
        split at his
        · rename_i is0 hout
          rcases List.mem_append.mp his with hmem | hmem
          · split at hmem
            · simp only [List.mem_singleton] at hmem
              subst hmem
              simp [duplicateIssue]
            · simp at hmem
          · simp only [List.mem_singleton] at hmem
            subst hmem
            rcases hty : spec.type with _ | _ | _ | _ <;> rw [hty] at hout
            · rcases coerceString_issue_code _ _ _ _ _ _ _ hout with hc | hc <;>
                simp [hc]
            · have hc := coerceBoolean_issue_code _ _ _ _ _ _ hout
              simp [hc]
            · rcases coerceNumber_issue_code _ _ _ _ _ _ hout with hc | hc <;>
                simp [hc]
            · have hc := coerceArray_issue_code _ _ _ _ _ _ _ _ _ hout
              simp [hc]
        · split at his
          · simp only [List.mem_singleton] at his
            subst his
            simp [duplicateIssue]
          · simp at his
      · intro k hk
        have hmono := lookupA_setA_true_mono st.present k key hk
        simpa using hmono

theorem scanLoopF_congr (ctx : ScanCtx) :
    ∀ (f₁ : Nat) (rem : List String), rem.length ≤ f₁ → ∀ (f₂ : Nat),
    rem.length ≤ f₂ → ∀ (i : Nat) (st : ScanState),
    scanLoopF ctx f₁ i rem st = scanLoopF ctx f₂ i rem st := by
  intro f₁
  induction f₁ with
  | zero =>
    intro rem hlen f₂ hlen₂ i st
    have hnil : rem = [] := List.eq_nil_of_length_eq_zero (Nat.le_zero.mp hlen)
    subst hnil
    cases f₂ <;> rfl
  | succ f₁ ih =>
    intro rem hlen f₂ hlen₂ i st
    cases rem with
    | nil => cases f₂ <;> rfl
    | cons tok tail =>
      cases f₂ with
      | zero => simp at hlen₂
      | succ f₂ =>
        simp only [scanLoopF]
        cases hstep : stepAt ctx i tok tail st with
        | mk st' cont =>
          cases cont with
          | none => rfl
          | some skip =>
            simp only [List.length_cons] at hlen hlen₂
            have hd : (tail.drop skip).length ≤ f₁ := by
              simp only [List.length_drop]; omega
            have hd₂ : (tail.drop skip).length ≤ f₂ := by
              simp only [List.length_drop]; omega
            exact ih (tail.drop skip) hd f₂ hd₂ (i + 1 + skip) st'

theorem scanLoop_nil (ctx : ScanCtx) (i : Nat) (st : ScanState) :
    scanLoop ctx i [] st = st := rfl

theorem scanLoop_cons (ctx : ScanCtx) (i : Nat) (tok : String) (tail : List String)
    (st : ScanState) :
    scanLoop ctx i (tok :: tail) st =
      match stepAt ctx i tok tail st with
      | (st', none) => st'
      | (st', some skip) => scanLoop ctx (i + 1 + skip) (tail.drop skip) st' := by
  unfold scanLoop
  simp only [List.length_cons, scanLoopF]
  cases hstep : stepAt ctx i tok tail st with
  | mk st' cont =>
    cases cont with
    | none => rfl
    | some skip =>
      exact scanLoopF_congr ctx tail.length (tail.drop skip)
        (by simp only [List.length_drop]; omega) (tail.drop skip).length le_rfl
        (i + 1 + skip) st'

theorem scanLoop_spec (ctx : ScanCtx) :
    ∀ (n : Nat) (rem : List String), rem.length ≤ n → ∀ (i : Nat) (st : ScanState),
    (∃ new, (scanLoop ctx i rem st).issues = st.issues ++ new ∧
      ∀ is ∈ new, is.code ≠ .REQUIRED) ∧
    (∀ k, lookupA st.present k = some true →
      lookupA (scanLoop ctx i rem st).present k = some true) := by
  intro n
  induction n with
  | zero =>
    intro rem hlen i st
    have hnil : rem = [] := List.eq_nil_of_length_eq_zero (Nat.le_zero.mp hlen)
    subst hnil
    rw [scanLoop_nil]
    exact ⟨⟨[], by simp, by simp⟩, fun k hk => hk⟩
  | succ n ih =>
    intro rem hlen i st
    cases rem with
    | nil =>
      rw [scanLoop_nil]
      exact ⟨⟨[], by simp, by simp⟩, fun k hk => hk⟩
    | cons tok tail =>
      rw [scanLoop_cons]
      obtain ⟨⟨st', cont⟩, hstep⟩ : ∃ p, stepAt ctx i tok tail st = p := ⟨_, rfl⟩
      rw [hstep]
      obtain ⟨⟨new1, hiss1, hreq1⟩, hmono1⟩ := stepAt_spec ctx i tok tail st st' cont hstep
      cases cont with
      | none =>
        exact ⟨⟨new1, hiss1, hreq1⟩, fun k hk => hmono1 k hk⟩
      | some skip =>
        have hlen2 : (tail.drop skip).length ≤ n := by
          simp only [List.length_drop]
          simp only [List.length_cons] at hlen
          omega
        obtain ⟨⟨new2, hiss2, hreq2⟩, hmono2⟩ := ih (tail.drop skip) hlen2 (i + 1 + skip) st'
        refine ⟨⟨new1 ++ new2, ?_, ?_⟩, ?_⟩
        · dsimp only
          rw [hiss2, hiss1, List.append_assoc]
        · intro is his
          rcases List.mem_append.mp his with hm | hm
          · exact hreq1 is hm
          · exact hreq2 is hm
        · intro k hk
          exact hmono2 k (hmono1 k hk)

theorem isRequiredFor_requiredIssue (k k' : String) (sp : NormalizedSpec) :
    isRequiredFor k (requiredIssue k' sp) = (k' == k) := by
  simp [isRequiredFor, requiredIssue]

theorem requiredIssues_cons (k₀ : String) (sp₀ : NormalizedSpec)
    (tl : List (String × NormalizedSpec)) (pr : List (String × Bool)) :
    requiredIssues ((k₀, sp₀) :: tl) pr =
      (if sp₀.required = true ∧ lookupA pr k₀ ≠ some true
        then [requiredIssue k₀ sp₀] else []) ++ requiredIssues tl pr := by
  simp only [requiredIssues, List.filterMap_cons]
  by_cases hc : sp₀.required = true ∧ lookupA pr k₀ ≠ some true
  · rw [if_pos hc, if_pos hc]
    simp
  · rw [if_neg hc, if_neg hc]
    simp

theorem requiredIssues_filter_not_mem (tl : List (String × NormalizedSpec))
    (pr : List (String × Bool)) (k : String)
    (hnot : k ∉ tl.map Prod.fst) :
    (requiredIssues tl pr).filter (isRequiredFor k) = [] := by
  induction tl with
  | nil => simp [requiredIssues]
  | cons hd tl ih =>
    obtain ⟨k₀, sp₀⟩ := hd
    simp only [List.map_cons, List.mem_cons] at hnot
    push_neg at hnot
    have hne : k₀ ≠ k := fun hh => hnot.1 hh.symm
    have hfalse : isRequiredFor k (requiredIssue k₀ sp₀) = false := by
      rw [isRequiredFor_requiredIssue]
      exact beq_eq_false_iff_ne.mpr hne
    rw [requiredIssues_cons, List.filter_append]
    rw [ih hnot.2]
    by_cases hc : sp₀.required = true ∧ lookupA pr k₀ ≠ some true
    · rw [if_pos hc]
      simp [List.filter_cons, hfalse]
    · rw [if_neg hc]
      simp

theorem requiredIssues_filter (nm : List (String × NormalizedSpec))
    (pr : List (String × Bool)) (k : String) (sp : NormalizedSpec)
    (hnd : (nm.map Prod.fst).Nodup) (hk : lookupA nm k = some sp) :
    (requiredIssues nm pr).filter (isRequiredFor k) =
      if sp.required = true ∧ lookupA pr k ≠ some true then [requiredIssue k sp]
      else [] := by
  induction nm with
  | nil => simp [lookupA] at hk
  | cons hd tl ih =>
    obtain ⟨k₀, sp₀⟩ := hd
    simp only [List.map_cons, List.nodup_cons] at hnd
    simp only [lookupA] at hk
    rw [requiredIssues_cons, List.filter_append]
    by_cases hkk : k₀ = k
    · subst hkk
      simp only [if_pos rfl] at hk
      injection hk with hk
      subst hk
      have htrue : isRequiredFor k₀ (requiredIssue k₀ sp₀) = true := by
        rw [isRequiredFor_requiredIssue]
        exact beq_self_eq_true k₀
      rw [requiredIssues_filter_not_mem tl pr k₀ hnd.1]
      by_cases hc : sp₀.required = true ∧ lookupA pr k₀ ≠ some true
      · rw [if_pos hc]
        simp [List.filter_cons, htrue]
      · rw [if_neg hc]
        simp
    · simp only [if_neg hkk] at hk
      have hfalse : isRequiredFor k (requiredIssue k₀ sp₀) = false := by
        rw [isRequiredFor_requiredIssue]
        exact beq_eq_false_iff_ne.mpr hkk
      rw [ih hnd.2 hk]
      by_cases hc : sp₀.required = true ∧ lookupA pr k₀ ≠ some true
      · rw [if_pos hc]
        simp [List.filter_cons, hfalse]
      · rw [if_neg hc]
        simp

theorem validateEntries_keys :
    ∀ (entries : List (String × JVal)) (ftk : List (String × String))
      (nm : List (String × NormalizedSpec))
      (out : List (String × String) × List (String × NormalizedSpec)),
    validateEntries entries ftk nm = .ok out →
    out.2.map Prod.fst = nm.map Prod.fst ++ entries.map Prod.fst := by
  intro entries
  induction entries with
  | nil =>
    intro ftk nm out h
    unfold validateEntries at h
    injection h with h
    subst h
    simp
  | cons e tl ih =>
    intro ftk nm out h
    obtain ⟨key, rawSpec⟩ := e
    unfold validateEntries at h
    cases hv : validateEntry key rawSpec ftk with
    | error msg =>
      rw [hv] at h
      simp [Bind.bind, Except.bind] at h
    | ok o =>
      rw [hv] at h
      simp only [Bind.bind, Except.bind] at h
      have := ih o.1 (nm ++ [(key, o.2)]) out h
      rw [this]
      simp

theorem validateSchema_keys (entries : List (String × JVal))
    (ftk : List (String × String)) (nm : List (String × NormalizedSpec))
    (h : validateSchema (.obj entries) = .ok (ftk, nm)) :
    nm.map Prod.fst = entries.map Prod.fst := by
  unfold validateSchema at h
  have := validateEntries_keys entries [] [] (ftk, nm) h
  simpa using this

theorem parseArgs_eq (schema : JVal) (options : ParseOptions)
    (ftk : List (String × String)) (nm : List (String × NormalizedSpec))
    (hv : validateSchema schema = .ok (ftk, nm)) :
    parseArgs schema options =
      (let ctx : ScanCtx :=
        { ftk := ftk, nm := nm,
          allowUnknown := options.allowUnknown == some true,
          stopDD := options.stopAtDoubleDash != some false }
      let stF := scanLoop ctx 0 options.argv (initState nm)
      .ok (assembleResult stF (stF.issues ++ requiredIssues nm stF.present))) := by
  unfold parseArgs
  rw [hv]

/-- The shape of `stepAt` when the token is a flag that resolves directly to
key `k` with normalized spec `sp` (so neither the `--` stop, the `rest` path,
the negation path, nor the unknown path applies). -/
theorem stepAt_dispatch (ctx : ScanCtx) (i : Nat) (tok : String)
    (tail : List String) (st : ScanState) (flag : String)
    (inline : Option String) (k : String) (sp : NormalizedSpec)
    (hdd : (ctx.stopDD && tok == "--") = false)
    (hft : isFlagToken tok = true)
    (hsplit : splitInlineValue tok = (flag, inline))
    (hftk : lookupA ctx.ftk flag = some k)
    (hnm : lookupA ctx.nm k = some sp) :
    stepAt ctx i tok tail st =
      (let dup : List ParseIssue :=
        if lookupA st.present k = some true ∧ sp.type ≠ .array
          then [duplicateIssue flag k i] else []
      let stP := { st with present := setA st.present k true }
      let out :=
        match sp.type with
        | .boolean => coerceBoolean flag k i inline tail.head?
        | .string => coerceString flag k i sp.allowEmpty inline tail.head?
        | .number => coerceNumber flag k i inline tail.head?
        | .array =>
          coerceArray flag k i sp.allowEmpty ctx.stopDD inline tail
            (existingArray (lookupA stP.values k))
      let newValues :=
        match out.value with
        | some v => setA stP.values k (some v)
        | none => stP.values
      let newIssues :=
        match out.issue with
        | some is => dup ++ [is]
        | none => dup
      ({ stP with values := newValues, issues := st.issues ++ newIssues },
        some out.skip)) := by
  unfold stepAt
  rw [hdd, hft]
  simp only [Bool.false_eq_true, if_false, Bool.not_true, hsplit]
  rw [negationTarget_of_known ctx flag k hftk]
  rw [hftk]
  dsimp only
  rw [hnm]

theorem lookupA_map_snd {α β : Type} (f : α → β) (l : List (String × α))
    (k : String) :
    lookupA (l.map fun kp => (kp.1, f kp.2)) k = (lookupA l k).map f := by
  induction l with
  | nil => simp [lookupA]
  | cons hd tl ih =>
    obtain ⟨k₀, v₀⟩ := hd
    by_cases hk : k₀ = k
    · simp [lookupA, hk]
    · simp [lookupA, hk, ih]

theorem lookupA_initState_values (nm : List (String × NormalizedSpec))
    (k : String) (sp : NormalizedSpec) (hk : lookupA nm k = some sp) :
    lookupA (initState nm).values k = some (cloneDefault sp.dflt sp.type) := by
  unfold initState
  rw [lookupA_map_snd (fun sp => cloneDefault sp.dflt sp.type) nm k, hk]
  rfl

/-- At an array-typed occurrence with a non-empty collected element list,
the new value is the previously accumulated elements followed by the
collected ones. -/
theorem stepAt_array_appends (ctx : ScanCtx) (i : Nat) (tok : String)
    (tail : List String) (st : ScanState) (flag : String)
    (inline : Option String) (k : String) (sp : NormalizedSpec)
    (hdd : (ctx.stopDD && tok == "--") = false)
    (hft : isFlagToken tok = true)
    (hsplit : splitInlineValue tok = (flag, inline))
    (hftk : lookupA ctx.ftk flag = some k)
    (hnm : lookupA ctx.nm k = some sp)
    (hty : sp.type = .array)
    (old : List String)
    (hold : lookupA st.values k = some (some (.vArr old)))
    (collected : List String)
    (hcol : inlineCollected inline ++ arrayConsumed ctx.stopDD tail = collected)
    (hne : collected ≠ []) :
    lookupA (stepAt ctx i tok tail st).1.values k =
      some (some (.vArr (old ++ collected))) := by
  rw [stepAt_dispatch ctx i tok tail st flag inline k sp hdd hft hsplit hftk hnm]
  have hemp : collected.isEmpty = false := by
    cases collected with
    | nil => exact absurd rfl hne
    | cons a as => rfl
  simp only [hty, coerceArray, hcol, hemp, Bool.false_and, if_false,
    existingArray, hold]
  exact lookupA_setA_self _ _ _

/-! ## Claim theorems -/

/-- C1: for every `ParseResult` returned by `parseArgs`, the `ok` field is
true if and only if the issues list contains no issue with severity `error`;
issues with severity `warning` never make `ok` false. -/
theorem claim_C1_ok_iff_no_error (schema : JVal) (options : ParseOptions)
    (r : ParseResult) (h : parseArgs schema options = .ok r) :
    r.ok = true ↔ ∀ issue ∈ r.issues, issue.severity ≠ IssueSeverity.error := by
  unfold parseArgs at h
  cases hv : validateSchema schema with
  | error e => rw [hv] at h; cases h
  | ok tables =>
    rw [hv] at h
    dsimp only at h
    injection h with h
    subst h
    simp only [assembleResult]
    rw [List.all_eq_true]
    constructor
    · intro hall issue hmem
      exact of_decide_eq_true (hall issue hmem)
    · intro hall issue hmem
      exact decide_eq_true (hall issue hmem)

/-- C1 witness: a run with one warning (`DUPLICATE`) and one error
(`UNKNOWN_FLAG`), instantiating the equivalence. -/
theorem claim_C1_witness :
    ∃ r, parseArgs exSchemaFlagBool (exOpts ["--flag", "--flag", "--unknown"]) =
        Except.ok r ∧
      (r.ok = true ↔ ∀ issue ∈ r.issues, issue.severity ≠ IssueSeverity.error) := by
  obtain ⟨r, hr⟩ : ∃ r,
      parseArgs exSchemaFlagBool (exOpts ["--flag", "--flag", "--unknown"]) =
        Except.ok r := ⟨_, rfl⟩
  exact ⟨r, hr, claim_C1_ok_iff_no_error _ _ _ hr⟩

/-- C2 (code evaluation at the failing inputs): `validateSchema` accepts a
schema that sets `allowNo` on a string entry, a schema that sets `allowEmpty`
on a boolean entry, and a schema whose `required` is the string `'yes'`, and
`parseArgs` returns a result on them instead of throwing — the repository's
own test suite expects all three to throw. -/
theorem claim_C2_validateSchema_accepts_misused_modifiers :
    isOkE (validateSchema exSchemaAllowNoOnString) = true ∧
    isOkE (validateSchema exSchemaAllowEmptyOnBoolean) = true ∧
    isOkE (validateSchema exSchemaRequiredNonBool) = true ∧
    isOkE (parseArgs exSchemaAllowNoOnString (exOpts [])) = true ∧
    isOkE (parseArgs exSchemaAllowEmptyOnBoolean (exOpts [])) = true ∧
    isOkE (parseArgs exSchemaRequiredNonBool (exOpts [])) = true :=
  ⟨rfl, rfl, rfl, rfl, rfl, rfl⟩

/-- C8: once the schema passes validation, `parseArgs` always returns a
`ParseResult` (throwing is modelled by `Except.error`, which cannot occur
past validation), and every reported issue carries one of the six codes with
severity `error` or `warning`. -/
theorem claim_C8_no_throw_and_issue_shape (schema : JVal) (options : ParseOptions)
    (tables : List (String × String) × List (String × NormalizedSpec))
    (hv : validateSchema schema = .ok tables) :
    ∃ r, parseArgs schema options = .ok r ∧
      ∀ issue ∈ r.issues,
        (issue.code = IssueCode.UNKNOWN_FLAG ∨ issue.code = IssueCode.MISSING_VALUE ∨
         issue.code = IssueCode.INVALID_VALUE ∨ issue.code = IssueCode.REQUIRED ∨
         issue.code = IssueCode.DUPLICATE ∨ issue.code = IssueCode.EMPTY_VALUE) ∧
        (issue.severity = IssueSeverity.error ∨
         issue.severity = IssueSeverity.warning) := by
  obtain ⟨r, hr⟩ : ∃ r, parseArgs schema options = .ok r := by
    unfold parseArgs
    rw [hv]
    exact ⟨_, rfl⟩
  refine ⟨r, hr, ?_⟩
  intro issue _
  constructor
  · rcases hc : issue.code <;> simp [hc]
  · rcases hs : issue.severity <;> simp [hs]

/-- C8 witness: a concrete validated schema and an argv that produces issues,
instantiating the theorem. -/
theorem claim_C8_witness :
    ∃ tables, validateSchema exSchemaNameReq = Except.ok tables ∧
      ∃ r, parseArgs exSchemaNameReq (exOpts ["--bogus"]) = Except.ok r ∧
        ∀ issue ∈ r.issues,
          (issue.code = IssueCode.UNKNOWN_FLAG ∨ issue.code = IssueCode.MISSING_VALUE ∨
           issue.code = IssueCode.INVALID_VALUE ∨ issue.code = IssueCode.REQUIRED ∨
           issue.code = IssueCode.DUPLICATE ∨ issue.code = IssueCode.EMPTY_VALUE) ∧
          (issue.severity = IssueSeverity.error ∨
           issue.severity = IssueSeverity.warning) := by
  obtain ⟨tables, ht⟩ : ∃ tables,
      validateSchema exSchemaNameReq = Except.ok tables := ⟨_, rfl⟩
  exact ⟨tables, ht, claim_C8_no_throw_and_issue_shape _ _ _ ht⟩

/-- C5: at a boolean-typed flag occurrence, (i) an inline value that does not
parse as a boolean word yields an `INVALID_VALUE` error and the key's value
is not assigned (so a declared default remains); (ii) with no value source
(no inline value, and the next token absent or not a boolean word) the value
becomes `true` by bare presence and nothing is consumed; (iii) the next
token is consumed as the value exactly when it parses as a boolean word. -/
theorem claim_C5_boolean_coercion (ctx : ScanCtx) (i : Nat) (tok : String)
    (tail : List String) (st : ScanState) (flag : String)
    (inline : Option String) (k : String) (sp : NormalizedSpec)
    (hdd : (ctx.stopDD && tok == "--") = false)
    (hft : isFlagToken tok = true)
    (hsplit : splitInlineValue tok = (flag, inline))
    (hftk : lookupA ctx.ftk flag = some k)
    (hnm : lookupA ctx.nm k = some sp)
    (hty : sp.type = .boolean) :
    (∀ v, inline = some v → normalizeBoolean v = none →
      lookupA (stepAt ctx i tok tail st).1.values k = lookupA st.values k ∧
      ∃ new, (stepAt ctx i tok tail st).1.issues = st.issues ++ new ∧
        ∃ issue ∈ new, issue.code = IssueCode.INVALID_VALUE ∧
          issue.severity = IssueSeverity.error ∧ issue.key = some k) ∧
    (inline = none → tail.head?.bind normalizeBoolean = none →
      lookupA (stepAt ctx i tok tail st).1.values k =
        some (some (.vBool true)) ∧
      (stepAt ctx i tok tail st).2 = some 0) ∧
    (∀ t b, inline = none → tail.head? = some t → normalizeBoolean t = some b →
      lookupA (stepAt ctx i tok tail st).1.values k =
        some (some (.vBool b)) ∧
      (stepAt ctx i tok tail st).2 = some 1) := by
  rw [stepAt_dispatch ctx i tok tail st flag inline k sp hdd hft hsplit hftk hnm]
  refine ⟨?_, ?_, ?_⟩
  · intro v hv hnb
    subst hv
    simp only [hty, coerceBoolean, hnb]
    exact ⟨trivial, _, rfl, _, List.mem_append_right _ (List.mem_singleton_self _),
      rfl, rfl, rfl⟩
  · intro hv hnb
    subst hv
    cases hhd : tail.head? with
    | none =>
      simp only [hty, coerceBoolean, hhd]
      exact ⟨lookupA_setA_self _ _ _, trivial⟩
    | some t =>
      rw [hhd] at hnb
      simp only [Option.bind] at hnb
      simp only [hty, coerceBoolean, hhd, hnb]
      exact ⟨lookupA_setA_self _ _ _, trivial⟩
  · intro t b hv hhd hnb
    subst hv
    simp only [hty, coerceBoolean, hhd, hnb]
    exact ⟨lookupA_setA_self _ _ _, trivial⟩

/-- C5 witness: the three parts instantiated in a one-key boolean context:
`--flag=banana` (invalid inline value, default kept), bare `--flag`
(becomes true, nothing consumed), and `--flag yes` (look-ahead consumed). -/
theorem claim_C5_witness :
    (lookupA (stepAt exBoolCtx 0 "--flag=banana" [] exBoolSt).1.values "flag" =
        lookupA exBoolSt.values "flag" ∧
      ∃ new, (stepAt exBoolCtx 0 "--flag=banana" [] exBoolSt).1.issues =
          exBoolSt.issues ++ new ∧
        ∃ issue ∈ new, issue.code = IssueCode.INVALID_VALUE ∧
          issue.severity = IssueSeverity.error ∧ issue.key = some "flag") ∧
    (lookupA (stepAt exBoolCtx 0 "--flag" [] exBoolSt).1.values "flag" =
        some (some (.vBool true)) ∧
      (stepAt exBoolCtx 0 "--flag" [] exBoolSt).2 = some 0) ∧
    (lookupA (stepAt exBoolCtx 0 "--flag" ["yes"] exBoolSt).1.values "flag" =
        some (some (.vBool true)) ∧
      (stepAt exBoolCtx 0 "--flag" ["yes"] exBoolSt).2 = some 1) := by
  have h1 := claim_C5_boolean_coercion exBoolCtx 0 "--flag=banana" [] exBoolSt
    "--flag" (some "banana") "flag" exBoolSpec rfl rfl rfl rfl rfl rfl
  have h2 := claim_C5_boolean_coercion exBoolCtx 0 "--flag" [] exBoolSt
    "--flag" none "flag" exBoolSpec rfl rfl rfl rfl rfl rfl
  have h3 := claim_C5_boolean_coercion exBoolCtx 0 "--flag" ["yes"] exBoolSt
    "--flag" none "flag" exBoolSpec rfl rfl rfl rfl rfl rfl
  exact ⟨h1.1 "banana" rfl rfl, h2.2.1 rfl rfl, h3.2.2 "yes" true rfl rfl rfl⟩

/-- C6: for a number-typed flag with no inline value, the next token is
accepted as the value source whenever it is a well-formed finite number
(`isNumericValue`), even if it starts with `-`: it is consumed (`skip = 1`),
the value becomes `Number(t)`, and no issue is emitted at the occurrence
(the flag not being already present).  In particular (scenario D), schema
`{ n: number }` with input `["--n", "-3"]` gives `ok = true` and
`values.n = -3`. -/
theorem claim_C6_negative_number_value (ctx : ScanCtx) (i : Nat) (tok : String)
    (tail : List String) (st : ScanState) (flag : String) (k : String)
    (sp : NormalizedSpec)
    (hdd : (ctx.stopDD && tok == "--") = false)
    (hft : isFlagToken tok = true)
    (hsplit : splitInlineValue tok = (flag, none))
    (hftk : lookupA ctx.ftk flag = some k)
    (hnm : lookupA ctx.nm k = some sp)
    (hty : sp.type = .number)
    (t : String) (hhd : tail.head? = some t)
    (hnum : isNumericValue t = true)
    (hpres : lookupA st.present k ≠ some true) :
    (lookupA (stepAt ctx i tok tail st).1.values k =
        some (some (.vNum (jsStringToNumber t))) ∧
      (stepAt ctx i tok tail st).1.issues = st.issues ∧
      (stepAt ctx i tok tail st).2 = some 1) ∧
    (parseArgs exSchemaN (exOpts ["--n", "-3"])).toOption.map
        (fun r => (r.ok, lookupA r.values "n")) =
      some (true, some (some (.vNum (.fin (-3))))) := by
  constructor
  · rw [stepAt_dispatch ctx i tok tail st flag none k sp hdd hft hsplit hftk hnm]
    have hdup : ¬ (lookupA st.present k = some true ∧
        FlagType.number ≠ FlagType.array) :=
      fun hcon => hpres hcon.1
    simp only [hty, coerceNumber, hhd, hnum, Bool.not_true, Bool.false_and,
      Bool.false_eq_true, if_false, finishNumber, hdup, List.append_nil]
    exact ⟨lookupA_setA_self _ _ _, trivial, trivial⟩
  · with_unfolding_all rfl

/-- C6 witness: the step-level part at `--n` followed by `-3` in a one-key
number context. -/
theorem claim_C6_witness :
    (lookupA (stepAt exNumCtx 0 "--n" ["-3"] exNumSt).1.values "n" =
        some (some (.vNum (jsStringToNumber "-3"))) ∧
      (stepAt exNumCtx 0 "--n" ["-3"] exNumSt).1.issues = exNumSt.issues ∧
      (stepAt exNumCtx 0 "--n" ["-3"] exNumSt).2 = some 1) ∧
    (parseArgs exSchemaN (exOpts ["--n", "-3"])).toOption.map
        (fun r => (r.ok, lookupA r.values "n")) =
      some (true, some (some (.vNum (.fin (-3))))) :=
  claim_C6_negative_number_value exNumCtx 0 "--n" ["-3"] exNumSt "--n" "n"
    exNumSpec rfl rfl rfl rfl rfl rfl "-3" rfl (by with_unfolding_all rfl)
    (by decide)

/-- C7: array values accumulate across repeated occurrences and are never
overwritten: at an array occurrence the collected elements are appended
after the previously accumulated ones.  In particular (scenario C), schema
`{ items: array }` with input `["--items", "a", "b", "--items", "c"]` gives
`values.items = ["a", "b", "c"]`. -/
theorem claim_C7_array_accumulates (ctx : ScanCtx) (i : Nat) (tok : String)
    (tail : List String) (st : ScanState) (flag : String)
    (inline : Option String) (k : String) (sp : NormalizedSpec)
    (hdd : (ctx.stopDD && tok == "--") = false)
    (hft : isFlagToken tok = true)
    (hsplit : splitInlineValue tok = (flag, inline))
    (hftk : lookupA ctx.ftk flag = some k)
    (hnm : lookupA ctx.nm k = some sp)
    (hty : sp.type = .array)
    (old : List String)
    (hold : lookupA st.values k = some (some (.vArr old)))
    (collected : List String)
    (hcol : inlineCollected inline ++ arrayConsumed ctx.stopDD tail = collected)
    (hne : collected ≠ []) :
    lookupA (stepAt ctx i tok tail st).1.values k =
      some (some (.vArr (old ++ collected))) ∧
    (parseArgs exSchemaItems
        (exOpts ["--items", "a", "b", "--items", "c"])).toOption.map
        (fun r => lookupA r.values "items") =
      some (some (some (.vArr ["a", "b", "c"]))) :=
  ⟨stepAt_array_appends ctx i tok tail st flag inline k sp hdd hft hsplit hftk
      hnm hty old hold collected hcol hne,
    rfl⟩

/-- C7 witness: the step-level part at a second `--items` occurrence with
already-accumulated elements `["a", "b"]` collecting `["c"]`. -/
theorem claim_C7_witness :
    lookupA (stepAt exArrCtx 4 "--items" ["c"]
        { exArrSt with values := [("items", some (.vArr ["a", "b"]))] }).1.values
        "items" = some (some (.vArr (["a", "b"] ++ ["c"]))) ∧
    (parseArgs exSchemaItems
        (exOpts ["--items", "a", "b", "--items", "c"])).toOption.map
        (fun r => lookupA r.values "items") =
      some (some (some (.vArr ["a", "b", "c"]))) :=
  claim_C7_array_accumulates exArrCtx 4 "--items" ["c"]
    { exArrSt with values := [("items", some (.vArr ["a", "b"]))] }
    "--items" none "items" exArrSpec rfl rfl rfl rfl rfl rfl
    ["a", "b"] rfl ["c"] rfl (by decide)

/-- C3 counterexample: for schema `{ items: array, default: ['seed'] }` and
input `["--items", "a"]` (one occurrence collecting `["a"]`), the resulting
value is `["seed", "a"]` — it is not the collected elements without the
default's elements. -/
theorem claim_C3_counterexample :
    (parseArgs exSchemaItemsSeed (exOpts ["--items", "a"])).toOption.map
        (fun r => lookupA r.values "items") =
      some (some (some (.vArr ["seed", "a"]))) ∧
    ¬ ((parseArgs exSchemaItemsSeed (exOpts ["--items", "a"])).toOption.map
        (fun r => lookupA r.values "items") =
      some (some (some (.vArr ["a"])))) := by
  constructor
  · rfl
  · intro hcon
    rw [show (parseArgs exSchemaItemsSeed (exOpts ["--items", "a"])).toOption.map
        (fun r => lookupA r.values "items") =
      some (some (some (FlagValue.vArr ["seed", "a"]))) from rfl] at hcon
    simp at hcon

/-- C3 (amended): the elements collected at an array occurrence are appended
to the value already accumulated for that key, and that accumulator starts
as the cloned declared default; hence with a non-empty declared array
default and one occurrence, the result is the default's elements followed by
the collected elements (for `default: ['seed']` and input
`["--items", "a"]`, the value is `["seed", "a"]`). -/
theorem claim_C3_amended (ctx : ScanCtx) (i : Nat) (tok : String)
    (tail : List String) (st : ScanState) (flag : String)
    (inline : Option String) (k : String) (sp : NormalizedSpec)
    (hdd : (ctx.stopDD && tok == "--") = false)
    (hft : isFlagToken tok = true)
    (hsplit : splitInlineValue tok = (flag, inline))
    (hftk : lookupA ctx.ftk flag = some k)
    (hnm : lookupA ctx.nm k = some sp)
    (hty : sp.type = .array)
    (old : List String)
    (hold : lookupA st.values k = some (some (.vArr old)))
    (collected : List String)
    (hcol : inlineCollected inline ++ arrayConsumed ctx.stopDD tail = collected)
    (hne : collected ≠ []) :
    (∀ nm k₀ sp₀, lookupA nm k₀ = some sp₀ →
      lookupA (initState nm).values k₀ =
        some (cloneDefault sp₀.dflt sp₀.type)) ∧
    lookupA (stepAt ctx i tok tail st).1.values k =
      some (some (.vArr (old ++ collected))) ∧
    (parseArgs exSchemaItemsSeed (exOpts ["--items", "a"])).toOption.map
        (fun r => lookupA r.values "items") =
      some (some (some (.vArr ["seed", "a"]))) :=
  ⟨lookupA_initState_values,
    stepAt_array_appends ctx i tok tail st flag inline k sp hdd hft hsplit
      hftk hnm hty old hold collected hcol hne,
    rfl⟩

/-- C3 witness (for the amended claim): instantiated at the first `--items`
occurrence over the seeded default. -/
theorem claim_C3_witness :
    lookupA (stepAt exArrCtx 0 "--items" ["a"] exArrSt).1.values "items" =
      some (some (.vArr (["seed"] ++ ["a"]))) := by
  have h := claim_C3_amended exArrCtx 0 "--items" ["a"] exArrSt "--items" none
    "items" exArrSpec rfl rfl rfl rfl rfl rfl ["seed"] rfl ["a"] rfl (by decide)
  exact h.2.1

/-- C9: `present[key]` is set to true at every scanned occurrence of a
declared flag that resolves to `key`, before and regardless of the value
coercion's outcome; a later step never resets it (present-true is monotone
through the scan); consequently a required flag whose only occurrence fails
coercion yields the coercion error but no `REQUIRED` issue — concretely,
schema `{ name: string, required: true }` with input `["--name"]` gives
`present.name = true` and exactly a `MISSING_VALUE` error. -/
theorem claim_C9_present_set_on_occurrence :
    (∀ (ctx : ScanCtx) (i : Nat) (tok : String) (tail : List String)
      (st : ScanState) (flag : String) (inline : Option String) (k : String)
      (sp : NormalizedSpec),
      (ctx.stopDD && tok == "--") = false →
      isFlagToken tok = true →
      splitInlineValue tok = (flag, inline) →
      lookupA ctx.ftk flag = some k →
      lookupA ctx.nm k = some sp →
      lookupA (stepAt ctx i tok tail st).1.present k = some true) ∧
    (∀ (ctx : ScanCtx) (i : Nat) (rem : List String) (st : ScanState)
      (k : String), lookupA st.present k = some true →
      lookupA (scanLoop ctx i rem st).present k = some true) ∧
    (parseArgs exSchemaNameReq (exOpts ["--name"])).toOption.map
        (fun r => (lookupA r.present "name",
          r.issues.map (fun issue => issue.code), r.ok)) =
      some (some true, [IssueCode.MISSING_VALUE], false) := by
  refine ⟨?_, ?_, rfl⟩
  · intro ctx i tok tail st flag inline k sp hdd hft hsplit hftk hnm
    rw [stepAt_dispatch ctx i tok tail st flag inline k sp hdd hft hsplit
      hftk hnm]
    dsimp only
    exact lookupA_setA_self _ _ _
  · intro ctx i rem st k hk
    exact (scanLoop_spec ctx rem.length rem le_rfl i st).2 k hk

/-- C9 witness: the step part at a sole `--name` occurrence with a missing
value, and the monotonicity part on an already-present key. -/
theorem claim_C9_witness :
    lookupA (stepAt exStrCtx 0 "--name" [] exStrSt).1.present "name" =
      some true ∧
    lookupA (scanLoop exBoolCtx 0 ["rest"]
        { exBoolSt with present := [("flag", true)] }).present "flag" =
      some true := by
  have h := claim_C9_present_set_on_occurrence
  exact ⟨h.1 exStrCtx 0 "--name" [] exStrSt "--name" none "name" exStrReqSpec
      rfl rfl rfl rfl rfl,
    h.2.1 exBoolCtx 0 ["rest"] { exBoolSt with present := [("flag", true)] }
      "flag" rfl⟩

/-- C10: for a token `--no-<name>=<v>` where `--no-<name>` is not itself a
declared flag and `--<name>` resolves to a boolean key with `allowNo` not
false, the negation applies unconditionally: the inline value `v` is
ignored, the key's value becomes `false`, `present` becomes true, no
look-ahead is consumed, and no `INVALID_VALUE` issue is emitted for any `v`
(at most a `DUPLICATE` warning). -/
theorem claim_C10_negation_ignores_inline (ctx : ScanCtx) (i : Nat)
    (tok : String) (tail : List String) (st : ScanState) (flag v : String)
    (bk : String) (bsp : NormalizedSpec)
    (hdd : (ctx.stopDD && tok == "--") = false)
    (hft : isFlagToken tok = true)
    (hsplit : splitInlineValue tok = (flag, some v))
    (hpre : startsWithS flag "--no-" = true)
    (hmiss : lookupA ctx.ftk flag = none)
    (hbase : lookupA ctx.ftk ("--" ++ dropS flag 5) = some bk)
    (hbspec : lookupA ctx.nm bk = some bsp)
    (hbty : bsp.type = .boolean)
    (hbno : bsp.allowNo = true) :
    lookupA (stepAt ctx i tok tail st).1.values bk =
      some (some (.vBool false)) ∧
    lookupA (stepAt ctx i tok tail st).1.present bk = some true ∧
    (stepAt ctx i tok tail st).2 = some 0 ∧
    ∃ new, (stepAt ctx i tok tail st).1.issues = st.issues ++ new ∧
      ∀ issue ∈ new, issue.code = IssueCode.DUPLICATE := by
  have hneg : negationTarget ctx flag = some ("--" ++ dropS flag 5, bk) := by
    unfold negationTarget
    simp only [hpre, hmiss, Option.isNone_none, Bool.and_true, if_true,
      hbase, hbspec, hbty, hbno]
    simp
  unfold stepAt
  rw [hdd, hft]
  simp only [Bool.false_eq_true, if_false, Bool.not_true, hsplit]
  rw [hneg]
  dsimp only
  refine ⟨lookupA_setA_self _ _ _, lookupA_setA_self _ _ _, rfl, _, rfl, ?_⟩
  intro issue hmem
  split at hmem
  · simp only [List.mem_singleton] at hmem
    subst hmem
    rfl
  · simp at hmem

/-- C10 witness: `--no-flag=true` in the one-key boolean context — the
inline value `true` is ignored and the value becomes `false` with no
issue. -/
theorem claim_C10_witness :
    lookupA (stepAt exBoolCtx 0 "--no-flag=true" [] exBoolSt).1.values "flag" =
      some (some (.vBool false)) ∧
    lookupA (stepAt exBoolCtx 0 "--no-flag=true" [] exBoolSt).1.present "flag" =
      some true ∧
    (stepAt exBoolCtx 0 "--no-flag=true" [] exBoolSt).2 = some 0 ∧
    ∃ new, (stepAt exBoolCtx 0 "--no-flag=true" [] exBoolSt).1.issues =
        exBoolSt.issues ++ new ∧
      ∀ issue ∈ new, issue.code = IssueCode.DUPLICATE :=
  claim_C10_negation_ignores_inline exBoolCtx 0 "--no-flag=true" [] exBoolSt
    "--no-flag" "true" "flag" exBoolSpec rfl rfl rfl rfl rfl rfl rfl rfl rfl

/-- C4: after the token scan, for every schema key `k` (keys of a JS object
are distinct, hence the `Nodup` hypothesis), the result contains exactly one
`REQUIRED` issue for `k` — of severity `error`, naming the key's first
declared flag — precisely when the key is required and not present, and no
`REQUIRED` issue for `k` otherwise.  The condition does not consult the
key's declared default, so a required key with a default still gets the
issue; the scan phase never emits `REQUIRED`, so these issues come only from
the declaration-ordered required-field pass. -/
theorem claim_C4_required_pass (entries : List (String × JVal))
    (options : ParseOptions)
    (ftk : List (String × String)) (nm : List (String × NormalizedSpec))
    (r : ParseResult)
    (hnd : (entries.map Prod.fst).Nodup)
    (hv : validateSchema (.obj entries) = .ok (ftk, nm))
    (hr : parseArgs (.obj entries) options = .ok r)
    (k : String) (sp : NormalizedSpec) (hk : lookupA nm k = some sp) :
    r.issues.filter (isRequiredFor k) =
      (if sp.required = true ∧ lookupA r.present k ≠ some true
        then [requiredIssue k sp] else []) ∧
    (requiredIssue k sp).code = IssueCode.REQUIRED ∧
    (requiredIssue k sp).severity = IssueSeverity.error ∧
    (requiredIssue k sp).flag = sp.flags.head? := by
  have hndnm : (nm.map Prod.fst).Nodup := by
    rw [validateSchema_keys entries ftk nm hv]
    exact hnd
  rw [parseArgs_eq (.obj entries) options ftk nm hv] at hr
  dsimp only at hr
  injection hr with hr
  subst hr
  simp only [assembleResult]
  rw [List.filter_append]
  obtain ⟨new, hiss, hreq⟩ := (scanLoop_spec
    { ftk := ftk, nm := nm,
      allowUnknown := options.allowUnknown == some true,
      stopDD := options.stopAtDoubleDash != some false }
    options.argv.length options.argv le_rfl 0 (initState nm)).1
  have hfilter_scan :
      (scanLoop
        { ftk := ftk, nm := nm,
          allowUnknown := options.allowUnknown == some true,
          stopDD := options.stopAtDoubleDash != some false }
        0 options.argv (initState nm)).issues.filter (isRequiredFor k) = [] := by
    rw [hiss]
    simp only [initState, List.nil_append]
    apply List.filter_eq_nil.mpr
    intro issue hmem
    have hcode := hreq issue hmem
    simp [isRequiredFor, hcode]
  rw [hfilter_scan, List.nil_append]
  rw [requiredIssues_filter nm _ k sp hndnm hk]
  exact ⟨rfl, rfl, rfl, rfl⟩

/-- C4 witness: a required string key with a declared default and empty
argv — exactly one `REQUIRED` error is emitted, naming `--name`. -/
theorem claim_C4_witness :
    validateSchema exSchemaNameReqDef =
      Except.ok ([("--name", "name")], [("name", exNameReqDefSpec)]) ∧
    parseArgs exSchemaNameReqDef (exOpts []) = Except.ok exNameReqDefResult ∧
    lookupA [("name", exNameReqDefSpec)] "name" = some exNameReqDefSpec ∧
    exNameReqDefResult.issues.filter (isRequiredFor "name") =
      (if exNameReqDefSpec.required = true ∧
          lookupA exNameReqDefResult.present "name" ≠ some true
        then [requiredIssue "name" exNameReqDefSpec] else []) ∧
    exNameReqDefSpec.required = true ∧
    lookupA exNameReqDefResult.present "name" ≠ some true ∧
    exNameReqDefSpec.dflt = some (.vStr "d") ∧
    (requiredIssue "name" exNameReqDefSpec).severity = IssueSeverity.error ∧
    (requiredIssue "name" exNameReqDefSpec).flag = some "--name" := by
  refine ⟨rfl, rfl, rfl, ?_, rfl, by decide, rfl, rfl, rfl⟩
  exact (claim_C4_required_pass
    [("name", JVal.obj [("type", JVal.str "string"),
      ("flags", JVal.arr [JVal.str "--name"]), ("required", JVal.bool true),
      ("default", JVal.str "d")])]
    (exOpts []) [("--name", "name")]
    [("name", exNameReqDefSpec)] exNameReqDefResult (by decide) rfl rfl
    "name" exNameReqDefSpec rfl).1

end ArgvFlags
